import Mathlib

/-!
Shallow embedding of the wallet-to-wallet service's ledger core
(`app/services/wallet.py`, `app/services/webhook.py`,
`app/services/deposit.py`, `app/services/paystack.py`, and the transfer /
webhook endpoints of `app/api/wallet.py`).

Monetary amounts are Python `Decimal` values; all in-process arithmetic on
them (`+`, `-`, comparison) is exact, so they are embedded as `ℚ`.
Wallet rows are keyed here by their globally unique `wallet_number`
(the database enforces uniqueness of both `id` and `wallet_number`;
using the number as the row key is a faithful renaming).
-/

namespace WalletService

/-- `TransactionType` from `app/models/transaction.py`. -/
inductive TransactionType where
  | deposit
  | transfer_in
  | transfer_out
deriving DecidableEq, Repr

/-- `TransactionStatus` from `app/models/transaction.py`. -/
inductive TransactionStatus where
  | pending
  | success
  | failed
deriving DecidableEq, Repr

/-- `Transaction` row from `app/models/transaction.py`: owning wallet
(`wallet_id`, represented by the wallet's unique number), type, positive
amount, globally unique reference, status, and the counterparty wallet
number stored in `meta` (`recipient_wallet` / `sender_wallet`). -/
structure Transaction where
  wallet_number : String
  type : TransactionType
  amount : ℚ
  reference : String
  status : TransactionStatus
  meta : Option String
deriving DecidableEq, Repr

/-- Modelled from the spec: `app/models/wallet.py` is imported by
`app/models/__init__.py` but absent from the sources; spec §3 describes a
Wallet as a unique fixed-length numeric `wallet_number` (the public
address) together with a scale-2 decimal `balance`. -/
structure Wallet where
  wallet_number : String
  balance : ℚ
deriving DecidableEq, Repr

/-- The ledger: the wallet rows and the transaction rows of the store. -/
structure LedgerState where
  wallets : List Wallet
  transactions : List Transaction
deriving DecidableEq, Repr

/-- `get_wallet_by_number` (`app/services/wallet.py`): select the wallet row
whose `wallet_number` matches (unique, so first match). -/
def findWallet (n : String) (ws : List Wallet) : Option Wallet :=
  ws.find? (fun w => w.wallet_number == n)

/-- Modelled from the spec: `get_transaction_by_reference` lives in
`app/services/transaction.py`, which is absent from the sources; spec §4.1
gives `findTransactionByReference(ref) -> Transaction | not-found`, and the
`reference` column is declared `unique=True` in `app/models/transaction.py`,
so the lookup returns the (first and only) row with that reference. -/
def findTxn (ref : String) (ts : List Transaction) : Option Transaction :=
  ts.find? (fun t => t.reference == ref)

/-- In-place mutation `wallet.balance += d` of the row(s) whose number
matches (unique in the store, so at most one). -/
def creditBalance (n : String) (d : ℚ) (ws : List Wallet) : List Wallet :=
  ws.map (fun w => if w.wallet_number == n then { w with balance := w.balance + d } else w)

/-- In-place mutation `transaction.status = s'` of the row returned by the
reference lookup: the first (and, by uniqueness, only) matching row. -/
def setTxnStatus (ref : String) (s' : TransactionStatus) :
    List Transaction → List Transaction
  | [] => []
  | t :: ts =>
      if t.reference == ref then { t with status := s' } :: ts
      else t :: setTxnStatus ref s' ts

/-- The `{"status": ..., "message": ...}` dict returned by the webhook
service functions in `app/services/webhook.py`. -/
structure WebhookResult where
  status : Bool
  message : String
deriving DecidableEq, Repr

/-- `process_successful_charge` (`app/services/webhook.py` lines 10–61):
look up the transaction by reference (absent → benign ack); if already
`success`, ack without touching state; otherwise look up the owning wallet
(absent → `ValueError`) and run `credit_wallet`
(`app/services/wallet.py` lines 40–61): reject a non-positive amount,
else add the amount to the balance and set the transaction to `success`.
Errors (`.error`) model raised `ValueError`s: the session is rolled back,
so the ledger is left unchanged. -/
def process_successful_charge (ref : String) (st : LedgerState) :
    Except String (LedgerState × WebhookResult) :=
  match findTxn ref st.transactions with
  | none => .ok (st, ⟨true, "Transaction not found"⟩)
  | some t =>
      if t.status = TransactionStatus.success then
        .ok (st, ⟨true, "Transaction already processed"⟩)
      else
        match findWallet t.wallet_number st.wallets with
        | none => .error "Wallet not found for transaction"
        | some _ =>
            if t.amount ≤ 0 then .error "Amount must be positive"
            else
              .ok ({ wallets := creditBalance t.wallet_number t.amount st.wallets,
                     transactions := setTxnStatus ref TransactionStatus.success st.transactions },
                   ⟨true, "Wallet credited successfully"⟩)

/-- `process_failed_charge` (`app/services/webhook.py` lines 64–108):
look up by reference (absent → benign ack); already `failed` → ack;
already `success` → `{"status": False, "message": "Transaction already
successful"}` with no mutation; else mark the transaction `failed`. -/
def process_failed_charge (ref : String) (st : LedgerState) :
    LedgerState × WebhookResult :=
  match findTxn ref st.transactions with
  | none => (st, ⟨true, "Transaction not found"⟩)
  | some t =>
      if t.status = TransactionStatus.failed then
        (st, ⟨true, "Transaction already marked as failed"⟩)
      else if t.status = TransactionStatus.success then
        (st, ⟨false, "Transaction already successful"⟩)
      else
        ({ st with transactions := setTxnStatus ref TransactionStatus.failed st.transactions },
         ⟨true, "Transaction marked as failed"⟩)

/-- The deadlock-prevention lock ordering of `transfer_funds`
(`app/services/wallet.py` line 78):
`first, second = sorted([sender_wallet_number, recipient_wallet_number])` —
Python string comparison is lexicographic on code points, as is `≤` on
`String`. -/
def lockOrder (s r : String) : String × String :=
  if s ≤ r then (s, r) else (r, s)

/-- `transfer_funds` (`app/services/wallet.py` lines 64–134): reject a
non-positive amount; lock both wallets in `lockOrder` (either missing →
error); re-check the sender's balance under the lock; build the two
transaction rows sharing the random reference `token` with suffixes
`_OUT` / `_IN` and cross-referencing counterparty numbers in `meta`
(created `pending`, set to `success` in the same atomic commit — the
committed rows carry `success`); debit the sender, credit the recipient,
append both rows, commit. Any error leaves the ledger untouched
(checks precede mutation; the exception path rolls the session back). -/
def transfer_funds (s r : String) (amount : ℚ) (token : String) (st : LedgerState) :
    Except String (LedgerState × Transaction × Transaction) :=
  if amount ≤ 0 then .error "Amount must be positive"
  else
    match findWallet (lockOrder s r).1 st.wallets, findWallet (lockOrder s r).2 st.wallets with
    | some w1, some w2 =>
        let sender := if w1.wallet_number == s then w1 else w2
        let recipient := if w2.wallet_number == r then w2 else w1
        if sender.balance < amount then .error "Insufficient balance"
        else
          let senderTxn : Transaction :=
            { wallet_number := sender.wallet_number, type := TransactionType.transfer_out,
              amount := amount, reference := "TRF_" ++ token ++ "_OUT",
              status := TransactionStatus.success, meta := some recipient.wallet_number }
          let recipientTxn : Transaction :=
            { wallet_number := recipient.wallet_number, type := TransactionType.transfer_in,
              amount := amount, reference := "TRF_" ++ token ++ "_IN",
              status := TransactionStatus.success, meta := some sender.wallet_number }
          .ok ({ wallets := creditBalance recipient.wallet_number amount
                              (creditBalance sender.wallet_number (-amount) st.wallets),
                 transactions := st.transactions ++ [senderTxn, recipientTxn] },
               senderTxn, recipientTxn)
    | _, _ => .error "One or both wallets not found"

/-- `initialize_deposit` (`app/services/deposit.py`): generate the
reference `DEP_<token>` and create the pending deposit row.
Modelled from the spec for the row creation: `create_pending_transaction`
lives in `app/services/transaction.py`, absent from the sources; spec §4.3
says `beginDeposit` "creates a `pending` `deposit` transaction on the
wallet" under the fresh reference. The subsequent gateway call does not
touch the ledger. -/
def initialize_deposit (walletNumber : String) (amount : ℚ) (token : String)
    (st : LedgerState) : LedgerState × String :=
  ({ st with transactions := st.transactions ++
       [{ wallet_number := walletNumber, type := TransactionType.deposit,
          amount := amount, reference := "DEP_" ++ token,
          status := TransactionStatus.pending, meta := none }] },
   "DEP_" ++ token)

/-- An API-layer response: success flag, HTTP status code, message
(`app/utils/responses.py` success/fail responses). -/
structure ApiResponse where
  success : Bool
  statusCode : Nat
  message : String
deriving DecidableEq, Repr

/-- The `/wallet/transfer` endpoint (`app/api/wallet.py` lines 335–399):
resolve the sender's own wallet and the recipient by wallet number
(either missing → 404), reject a self-transfer (`sender_wallet.id ==
recipient_wallet.id`, here: equal wallet numbers) with a 400 before
calling the service, then run `transfer_funds`; a service `ValueError`
becomes a 400 and leaves the ledger unchanged (rollback). -/
def api_transfer_funds (senderNumber recipientNumber : String) (amount : ℚ)
    (token : String) (st : LedgerState) : LedgerState × ApiResponse :=
  match findWallet senderNumber st.wallets with
  | none => (st, ⟨false, 404, "Sender wallet not found"⟩)
  | some sw =>
      match findWallet recipientNumber st.wallets with
      | none => (st, ⟨false, 404, "Recipient wallet not found"⟩)
      | some rw =>
          if sw.wallet_number == rw.wallet_number then
            (st, ⟨false, 400, "Cannot transfer to your own wallet"⟩)
          else
            match transfer_funds sw.wallet_number rw.wallet_number amount token st with
            | .error e => (st, ⟨false, 400, e⟩)
            | .ok (st', _, _) => (st', ⟨true, 200, "Transfer completed successfully"⟩)

/-- The event dispatch of the `/wallet/paystack/webhook` endpoint
(`app/api/wallet.py` lines 226–265), after the signature and freshness
guards: a `charge.success` event with a reference runs
`process_successful_charge` (a `ValueError` → 404, ledger rolled back);
a `charge.success` event without a reference → 400; every other event is
acknowledged with 200 "Webhook received" and touches nothing.
`process_failed_charge` is not called from this endpoint (nor anywhere
else in the sources). -/
def paystack_webhook_dispatch (event : String) (reference : Option String)
    (st : LedgerState) : LedgerState × ApiResponse :=
  if event == "charge.success" then
    match reference with
    | none => (st, ⟨false, 400, "Missing transaction reference"⟩)
    | some ref =>
        match process_successful_charge ref st with
        | .ok (st', r) => (st', ⟨true, 200, r.message⟩)
        | .error e => (st, ⟨false, 404, e⟩)
  else (st, ⟨true, 200, "Webhook received"⟩)

/-- Python `int()` applied to a `Decimal`: truncation toward zero. -/
def pyInt (q : ℚ) : ℤ :=
  if q < 0 then ⌈q⌉ else ⌊q⌋

/-- `amount_kobo = int(amount * 100)` from
`PaystackService.initialize_transaction` (`app/services/paystack.py`
line 40). `Decimal` multiplication is exact, so the embedding multiplies
in `ℚ` and truncates. -/
def amount_kobo (amount : ℚ) : ℤ :=
  pyInt (amount * 100)

/-- The validation `DepositRequest` applies to `amount`
(`app/schemas/wallet.py` lines 24–34): `Field(..., gt=0)` — positivity
only; no bound on the number of decimal places. -/
def depositAmountValid (amount : ℚ) : Bool :=
  decide (0 < amount)

/-- One ledger-mutating operation of the core: a service-level transfer,
a deposit finalization (success or failed outcome), or a deposit
initiation. The random `uuid` tokens are explicit arguments. -/
inductive Op where
  | transfer (s r : String) (amount : ℚ) (token : String)
  | successCharge (ref : String)
  | failedCharge (ref : String)
  | initDeposit (w : String) (amount : ℚ) (token : String)

/-- Apply one operation; a raised error rolls the session back, leaving
the ledger unchanged. -/
def applyOp (st : LedgerState) : Op → LedgerState
  | Op.transfer s r a tok =>
      match transfer_funds s r a tok st with
      | .ok (st', _, _) => st'
      | .error _ => st
  | Op.successCharge ref =>
      match process_successful_charge ref st with
      | .ok (st', _) => st'
      | .error _ => st
  | Op.failedCharge ref => (process_failed_charge ref st).1
  | Op.initDeposit w a tok => (initialize_deposit w a tok st).1

/-- Run a sequence of operations. -/
def runOps (st : LedgerState) (ops : List Op) : LedgerState :=
  ops.foldl applyOp st

/-- The amount of a transaction signed by its type: `transfer_out`
negative, `deposit` and `transfer_in` positive (spec §3). -/
def signedAmount (t : Transaction) : ℚ :=
  match t.type with
  | TransactionType.transfer_out => -t.amount
  | _ => t.amount

/-- The net sum of the signed amounts of wallet `n`'s `success`
transactions (spec §3 and §8: pending/failed rows contribute nothing). -/
def signedSuccessSum (n : String) (ts : List Transaction) : ℚ :=
  ((ts.filter (fun t => t.wallet_number == n && t.status == TransactionStatus.success)).map
    signedAmount).sum

/-- Per-transaction contribution of one row to wallet `n`'s signed
success sum: the signed amount when the row belongs to `n` and is
`success`, `0` otherwise. -/
def contrib (n : String) (t : Transaction) : ℚ :=
  if t.wallet_number == n && t.status == TransactionStatus.success then signedAmount t else 0

/-- Every non-deposit (transfer) transaction row is `success`: transfer
rows are created and settled in the same atomic commit
(`app/services/wallet.py` lines 97–121), so no committed transfer row is
ever `pending` or `failed`. -/
def nonDepositSuccess (ts : List Transaction) : Prop :=
  ∀ t ∈ ts, t.type ≠ TransactionType.deposit → t.status = TransactionStatus.success

/-- Every wallet's balance equals the net signed sum of its `success`
transactions (spec §3 invariant). -/
def balanced (st : LedgerState) : Prop :=
  ∀ w ∈ st.wallets, w.balance = signedSuccessSum w.wallet_number st.transactions

/-- The ledger invariant preserved by every operation. -/
def Inv (st : LedgerState) : Prop :=
  nonDepositSuccess st.transactions ∧ balanced st

/-- The allowed evolution of one transaction row's status under the
operations of the service (reflexive): unchanged, any move out of
`pending`, or the `failed -> success` re-credit performed by
`process_successful_charge` on a failed row. -/
def statusStep (a b : TransactionStatus) : Prop :=
  a = b ∨ a = TransactionStatus.pending ∨
    (a = TransactionStatus.failed ∧ b = TransactionStatus.success)

/-- Concrete two-wallet ledger with empty history (both balances zero). -/
def stC1 : LedgerState :=
  ⟨[⟨"1111111111111", 0⟩, ⟨"2222222222222", 0⟩], []⟩

/-- Deposit 2500 into the first wallet, finalize it, then transfer 1000. -/
def opsC1 : List Op :=
  [Op.initDeposit "1111111111111" 2500 "X", Op.successCharge "DEP_X",
   Op.transfer "1111111111111" "2222222222222" 1000 "T1"]

/-- Spec §8 scenario: wallet A holds 1000.00, wallet B holds 0.00. -/
def stC2 : LedgerState :=
  ⟨[⟨"1111111111111", 1000⟩, ⟨"2222222222222", 0⟩], []⟩

/-- A ledger holding one `failed` deposit row of amount 10. -/
def stC3 : LedgerState :=
  ⟨[⟨"1111111111111", 0⟩],
   [⟨"1111111111111", TransactionType.deposit, 10, "DEP_A",
     TransactionStatus.failed, none⟩]⟩

/-- Spec §8 scenario: balance 5000.00 with a pending 2500.00 deposit. -/
def stC4 : LedgerState :=
  ⟨[⟨"1111111111111", 5000⟩],
   [⟨"1111111111111", TransactionType.deposit, 2500, "DEP_X",
     TransactionStatus.pending, none⟩]⟩

/-- Sender with balance 500.00 next to an empty recipient wallet. -/
def stC5 : LedgerState :=
  ⟨[⟨"1111111111111", 500⟩, ⟨"2222222222222", 0⟩], []⟩

/-- A ledger whose deposit `DEP_X` has already been credited. -/
def stC6 : LedgerState :=
  ⟨[⟨"1111111111111", 2500⟩],
   [⟨"1111111111111", TransactionType.deposit, 2500, "DEP_X",
     TransactionStatus.success, none⟩]⟩

/-- A single wallet holding 1000.00. -/
def stC7 : LedgerState :=
  ⟨[⟨"1111111111111", 1000⟩], []⟩

/-- A ledger with a pending deposit `DEP_Y` of 2500 on a 5000 balance. -/
def stC10 : LedgerState :=
  ⟨[⟨"1111111111111", 5000⟩],
   [⟨"1111111111111", TransactionType.deposit, 2500, "DEP_Y",
     TransactionStatus.pending, none⟩]⟩

theorem signedSuccessSum_eq_contribSum (n : String) (ts : List Transaction) :
    signedSuccessSum n ts = (ts.map (contrib n)).sum := by
  induction ts with
  | nil => rfl
  | cons t ts ih =>
      by_cases h : (t.wallet_number == n && t.status == TransactionStatus.success) = true
      · simp [signedSuccessSum, List.filter_cons, h, contrib] at *
        simpa [h] using congrArg (fun x => signedAmount t + x) ih
      · simp [signedSuccessSum, List.filter_cons, h, contrib] at *
        simpa [h] using ih

theorem signedSuccessSum_append (n : String) (ts us : List Transaction) :
    signedSuccessSum n (ts ++ us) = signedSuccessSum n ts + signedSuccessSum n us := by
  simp [signedSuccessSum, List.filter_append]

theorem findTxn_cons (t : Transaction) (ts : List Transaction) (ref : String) :
    findTxn ref (t :: ts) =
      (if t.reference == ref then some t else findTxn ref ts) := by
  by_cases h : (t.reference == ref) = true <;> simp [findTxn, List.find?_cons, h]

theorem setTxnStatus_of_findTxn_none (ref : String) (s' : TransactionStatus)
    (ts : List Transaction) (h : findTxn ref ts = none) :
    setTxnStatus ref s' ts = ts := by
  induction ts with
  | nil => rfl
  | cons t ts ih =>
      rw [findTxn_cons] at h
      by_cases ht : (t.reference == ref) = true
      · simp [ht] at h
      · simp [setTxnStatus, ht] at *
        exact ih h

theorem contribSum_setTxnStatus (n ref : String) (s' : TransactionStatus)
    (ts : List Transaction) (t : Transaction) (h : findTxn ref ts = some t) :
    ((setTxnStatus ref s' ts).map (contrib n)).sum =
      (ts.map (contrib n)).sum - contrib n t + contrib n { t with status := s' } := by
  induction ts with
  | nil => simp [findTxn] at h
  | cons u ts ih =>
      rw [findTxn_cons] at h
      by_cases hu : (u.reference == ref) = true
      · simp [hu] at h
        subst h
        simp [setTxnStatus, hu]
        ring
      · simp [hu] at h
        simp [setTxnStatus, hu, ih h]
        ring

theorem signedSuccessSum_setTxnStatus (n ref : String) (s' : TransactionStatus)
    (ts : List Transaction) (t : Transaction) (h : findTxn ref ts = some t) :
    signedSuccessSum n (setTxnStatus ref s' ts) =
      signedSuccessSum n ts - contrib n t + contrib n { t with status := s' } := by
  rw [signedSuccessSum_eq_contribSum, signedSuccessSum_eq_contribSum]
  exact contribSum_setTxnStatus n ref s' ts t h

theorem mem_setTxnStatus (ref : String) (s' : TransactionStatus)
    (ts : List Transaction) (t' : Transaction) (h : t' ∈ setTxnStatus ref s' ts) :
    t' ∈ ts ∨ ∃ t0, findTxn ref ts = some t0 ∧ t' = { t0 with status := s' } := by
  induction ts with
  | nil => simp [setTxnStatus] at h
  | cons u ts ih =>
      by_cases hu : (u.reference == ref) = true
      · simp [setTxnStatus, hu] at h
        rcases h with h | h
        · exact Or.inr ⟨u, by simp [findTxn_cons, hu], h⟩
        · exact Or.inl (List.mem_cons_of_mem u h)
      · simp [setTxnStatus, hu] at h
        rcases h with h | h
        · exact Or.inl (by simp [h])
        · rcases ih h with h' | ⟨t0, hf, he⟩
          · exact Or.inl (List.mem_cons_of_mem u h')
          · exact Or.inr ⟨t0, by simp [findTxn_cons, hu, hf], he⟩

theorem findTxn_setTxnStatus_self (ref : String) (s' : TransactionStatus)
    (ts : List Transaction) (t : Transaction) (h : findTxn ref ts = some t) :
    findTxn ref (setTxnStatus ref s' ts) = some { t with status := s' } := by
  induction ts with
  | nil => simp [findTxn] at h
  | cons u ts ih =>
      rw [findTxn_cons] at h
      by_cases hu : (u.reference == ref) = true
      · simp [hu] at h
        subst h
        simp [setTxnStatus, hu, findTxn_cons]
      · simp [hu] at h
        simp [setTxnStatus, hu, findTxn_cons, ih h]

theorem getElem?_setTxnStatus (ref : String) (s' : TransactionStatus)
    (ts : List Transaction) (i : ℕ) (t : Transaction) (h : ts[i]? = some t) :
    (setTxnStatus ref s' ts)[i]? = some t ∨
      ((setTxnStatus ref s' ts)[i]? = some { t with status := s' } ∧
        findTxn ref ts = some t) := by
  induction ts generalizing i with
  | nil => simp at h
  | cons u ts ih =>
      by_cases hu : (u.reference == ref) = true
      · cases i with
        | zero =>
            simp at h
            subst h
            exact Or.inr ⟨by simp [setTxnStatus, hu], by simp [findTxn_cons, hu]⟩
        | succ j =>
            simp at h
            exact Or.inl (by simp [setTxnStatus, hu, h])
      · cases i with
        | zero =>
            simp at h
            subst h
            exact Or.inl (by simp [setTxnStatus, hu])
        | succ j =>
            simp at h
            rcases ih j h with h' | ⟨h', hf⟩
            · exact Or.inl (by simp [setTxnStatus, hu, h'])
            · exact Or.inr ⟨by simp [setTxnStatus, hu, h'],
                by simp [findTxn_cons, hu, hf]⟩

theorem findWallet_eq_number (n : String) (ws : List Wallet) (w : Wallet)
    (h : findWallet n ws = some w) : w.wallet_number = n := by
  have := List.find?_some h
  simpa using this

theorem findTxn_eq_reference (ref : String) (ts : List Transaction) (t : Transaction)
    (h : findTxn ref ts = some t) : t.reference = ref := by
  have := List.find?_some h
  simpa using this

theorem mem_of_findWallet (n : String) (ws : List Wallet) (w : Wallet)
    (h : findWallet n ws = some w) : w ∈ ws :=
  List.mem_of_find?_eq_some h

theorem mem_of_findTxn (ref : String) (ts : List Transaction) (t : Transaction)
    (h : findTxn ref ts = some t) : t ∈ ts :=
  List.mem_of_find?_eq_some h

theorem findWallet_creditBalance (m n : String) (d : ℚ) (ws : List Wallet) :
    findWallet m (creditBalance n d ws) =
      (findWallet m ws).map
        (fun w => if w.wallet_number == n then { w with balance := w.balance + d } else w) := by
  unfold findWallet creditBalance
  rw [List.find?_map]
  have hp : ((fun w : Wallet => w.wallet_number == m) ∘
        (fun w : Wallet =>
          if w.wallet_number == n then { w with balance := w.balance + d } else w)) =
      (fun w : Wallet => w.wallet_number == m) := by
    funext w
    by_cases hn : (w.wallet_number == n) = true <;> simp [Function.comp, hn]
  rw [hp]

theorem type_deposit_of_not_success {ts : List Transaction} {t : Transaction}
    (hnd : nonDepositSuccess ts) (hmem : t ∈ ts)
    (hst : t.status ≠ TransactionStatus.success) :
    t.type = TransactionType.deposit := by
  by_contra h
  exact hst (hnd t hmem h)

theorem signedSuccessSum_pair (n : String) (t1 t2 : Transaction) :
    signedSuccessSum n [t1, t2] = contrib n t1 + contrib n t2 := by
  simp [signedSuccessSum_eq_contribSum]

theorem nonDepositSuccess_set_success (ref : String) (ts : List Transaction)
    (h : nonDepositSuccess ts) :
    nonDepositSuccess (setTxnStatus ref TransactionStatus.success ts) := by
  intro t' ht' htype
  rcases mem_setTxnStatus ref _ ts t' ht' with hmem | ⟨t0, _, rfl⟩
  · exact h t' hmem htype
  · rfl

theorem nonDepositSuccess_set_failed (ref : String) (ts : List Transaction)
    (t : Transaction) (hfind : findTxn ref ts = some t)
    (hpend : t.status = TransactionStatus.pending)
    (h : nonDepositSuccess ts) :
    nonDepositSuccess (setTxnStatus ref TransactionStatus.failed ts) := by
  intro t' ht' htype
  rcases mem_setTxnStatus ref _ ts t' ht' with hmem | ⟨t0, hf0, rfl⟩
  · exact h t' hmem htype
  · rw [hfind] at hf0
    have ht0 : t0 = t := (Option.some.inj hf0).symm
    subst ht0
    have hd : t0.type = TransactionType.deposit :=
      type_deposit_of_not_success h (mem_of_findTxn _ _ _ hfind) (by rw [hpend]; simp)
    exact (htype hd).elim

theorem balanced_credit (ws : List Wallet) (ts : List Transaction) (ref : String)
    (t : Transaction)
    (hfind : findTxn ref ts = some t) (hst : t.status ≠ TransactionStatus.success)
    (hnd : nonDepositSuccess ts)
    (hbal : balanced ⟨ws, ts⟩) :
    balanced ⟨creditBalance t.wallet_number t.amount ws,
              setTxnStatus ref TransactionStatus.success ts⟩ := by
  intro w' hw'
  simp only [creditBalance] at hw'
  rcases List.mem_map.mp hw' with ⟨w, hwmem, rfl⟩
  have hb := hbal w hwmem
  have htype : t.type = TransactionType.deposit :=
    type_deposit_of_not_success hnd (mem_of_findTxn _ _ _ hfind) hst
  have h0 : contrib w.wallet_number t = 0 := by simp [contrib, hst]
  by_cases hc : w.wallet_number = t.wallet_number
  · have hcond : (w.wallet_number == t.wallet_number) = true := by simpa using hc
    have h1 : contrib w.wallet_number { t with status := TransactionStatus.success } =
        t.amount := by
      simp [contrib, hc, signedAmount, htype]
    rw [if_pos hcond]
    dsimp only
    rw [signedSuccessSum_setTxnStatus _ ref _ ts t hfind, h0, h1, hb]
    ring
  · have hcond : ¬ ((w.wallet_number == t.wallet_number) = true) := by simpa using hc
    have h1 : contrib w.wallet_number { t with status := TransactionStatus.success } =
        0 := by
      simp [contrib, Ne.symm hc]
    rw [if_neg hcond]
    rw [signedSuccessSum_setTxnStatus _ ref _ ts t hfind, h0, h1, hb]
    ring

theorem balanced_set_failed (ws : List Wallet) (ts : List Transaction) (ref : String)
    (t : Transaction) (hfind : findTxn ref ts = some t)
    (hpend : t.status = TransactionStatus.pending)
    (hbal : balanced ⟨ws, ts⟩) :
    balanced ⟨ws, setTxnStatus ref TransactionStatus.failed ts⟩ := by
  intro w hw
  have h0 : contrib w.wallet_number t = 0 := by simp [contrib, hpend]
  have h1 : contrib w.wallet_number { t with status := TransactionStatus.failed } = 0 := by
    simp [contrib]
  show w.balance = signedSuccessSum w.wallet_number _
  rw [signedSuccessSum_setTxnStatus _ ref _ ts t hfind, h0, h1]
  simpa using hbal w hw

theorem balanced_transfer (ws : List Wallet) (ts : List Transaction)
    (sN rN ref1 ref2 : String) (a : ℚ) (m1 m2 : Option String)
    (hbal : balanced ⟨ws, ts⟩) :
    balanced ⟨creditBalance rN a (creditBalance sN (-a) ws),
      ts ++ [⟨sN, TransactionType.transfer_out, a, ref1, TransactionStatus.success, m1⟩,
             ⟨rN, TransactionType.transfer_in, a, ref2, TransactionStatus.success, m2⟩]⟩ := by
  intro w' hw'
  simp only [creditBalance, List.map_map] at hw'
  rcases List.mem_map.mp hw' with ⟨w, hwmem, rfl⟩
  have hb := hbal w hwmem
  simp only [Function.comp_apply]
  rw [signedSuccessSum_append, signedSuccessSum_pair] at *
  by_cases hs : (w.wallet_number == sN) = true
  · have hs' : sN = w.wallet_number := by
      have := (beq_iff_eq).mp hs
      exact this.symm
    have c1 : contrib w.wallet_number
        ⟨sN, TransactionType.transfer_out, a, ref1, TransactionStatus.success, m1⟩ = -a := by
      simp [contrib, hs', signedAmount]
    rw [if_pos hs]
    dsimp only
    by_cases hr : (w.wallet_number == rN) = true
    · have hr' : rN = w.wallet_number := by
        have := (beq_iff_eq).mp hr
        exact this.symm
      have c2 : contrib w.wallet_number
          ⟨rN, TransactionType.transfer_in, a, ref2, TransactionStatus.success, m2⟩ = a := by
        simp [contrib, hr', signedAmount]
      rw [if_pos hr]
      dsimp only
      rw [c1, c2, hb]
      ring
    · have hr' : rN ≠ w.wallet_number := fun h => hr (by simp [h.symm])
      have c2 : contrib w.wallet_number
          ⟨rN, TransactionType.transfer_in, a, ref2, TransactionStatus.success, m2⟩ = 0 := by
        simp [contrib, hr']
      rw [if_neg hr]
      dsimp only
      rw [c1, c2, hb]
      ring
  · have hs' : sN ≠ w.wallet_number := fun h => hs (by simp [h.symm])
    have c1 : contrib w.wallet_number
        ⟨sN, TransactionType.transfer_out, a, ref1, TransactionStatus.success, m1⟩ = 0 := by
      simp [contrib, hs']
    rw [if_neg hs]
    by_cases hr : (w.wallet_number == rN) = true
    · have hr' : rN = w.wallet_number := by
        have := (beq_iff_eq).mp hr
        exact this.symm
      have c2 : contrib w.wallet_number
          ⟨rN, TransactionType.transfer_in, a, ref2, TransactionStatus.success, m2⟩ = a := by
        simp [contrib, hr', signedAmount]
      rw [if_pos hr]
      dsimp only
      rw [c1, c2, hb]
      ring
    · have hr' : rN ≠ w.wallet_number := fun h => hr (by simp [h.symm])
      have c2 : contrib w.wallet_number
          ⟨rN, TransactionType.transfer_in, a, ref2, TransactionStatus.success, m2⟩ = 0 := by
        simp [contrib, hr']
      rw [if_neg hr]
      rw [c1, c2, hb]
      ring

theorem Inv_applyOp (st : LedgerState) (op : Op) (h : Inv st) :
    Inv (applyOp st op) := by
  obtain ⟨hnd, hbal⟩ := h
  cases op with
  | transfer s r a tok =>
      unfold applyOp
      by_cases ha : a ≤ 0
      · simp [transfer_funds, ha]
        exact ⟨hnd, hbal⟩
      · cases hw1 : findWallet (lockOrder s r).1 st.wallets with
        | none =>
            simp [transfer_funds, ha, hw1]
            exact ⟨hnd, hbal⟩
        | some w1 =>
            cases hw2 : findWallet (lockOrder s r).2 st.wallets with
            | none =>
                simp [transfer_funds, ha, hw1, hw2]
                exact ⟨hnd, hbal⟩
            | some w2 =>
                by_cases hb : (if w1.wallet_number = s then w1 else w2).balance < a
                · simp [transfer_funds, ha, hw1, hw2, hb]
                  exact ⟨hnd, hbal⟩
                · simp only [transfer_funds, ha, hw1, hw2, hb, beq_iff_eq, if_false,
                    reduceIte]
                  refine ⟨?_, ?_⟩
                  · intro t' ht' htype
                    rcases List.mem_append.mp ht' with hmem | hmem
                    · exact hnd t' hmem htype
                    · simp only [List.mem_cons, List.not_mem_nil, or_false] at hmem
                      rcases hmem with rfl | rfl <;> rfl
                  · exact balanced_transfer st.wallets st.transactions _ _ _ _ a _ _ hbal
  | successCharge ref =>
      unfold applyOp
      cases hfind : findTxn ref st.transactions with
      | none =>
          simp [process_successful_charge, hfind]
          exact ⟨hnd, hbal⟩
      | some t =>
          by_cases hst : t.status = TransactionStatus.success
          · simp [process_successful_charge, hfind, hst]
            exact ⟨hnd, hbal⟩
          · cases hw : findWallet t.wallet_number st.wallets with
            | none =>
                simp [process_successful_charge, hfind, hst, hw]
                exact ⟨hnd, hbal⟩
            | some w0 =>
                by_cases hamt : t.amount ≤ 0
                · simp [process_successful_charge, hfind, hst, hw, hamt]
                  exact ⟨hnd, hbal⟩
                · simp only [process_successful_charge, hfind, hst, hw, hamt, if_false,
                    reduceIte]
                  exact ⟨nonDepositSuccess_set_success ref st.transactions hnd,
                    balanced_credit st.wallets st.transactions ref t hfind hst hnd hbal⟩
  | failedCharge ref =>
      unfold applyOp
      cases hfind : findTxn ref st.transactions with
      | none =>
          simp [process_failed_charge, hfind]
          exact ⟨hnd, hbal⟩
      | some t =>
          by_cases hf : t.status = TransactionStatus.failed
          · simp [process_failed_charge, hfind, hf]
            exact ⟨hnd, hbal⟩
          · by_cases hs : t.status = TransactionStatus.success
            · simp [process_failed_charge, hfind, hf, hs]
              exact ⟨hnd, hbal⟩
            · have hpend : t.status = TransactionStatus.pending := by
                cases hstat : t.status <;> simp_all
              simp only [process_failed_charge, hfind, hf, hs, if_false, reduceIte]
              exact ⟨nonDepositSuccess_set_failed ref st.transactions t hfind hpend hnd,
                balanced_set_failed st.wallets st.transactions ref t hfind hpend hbal⟩
  | initDeposit wn a tok =>
      unfold applyOp initialize_deposit
      constructor
      · intro t' ht' htype
        rcases List.mem_append.mp ht' with hmem | hmem
        · exact hnd t' hmem htype
        · simp at hmem
          simp_all
      · intro w hw
        simp only [signedSuccessSum_append]
        have hz : signedSuccessSum w.wallet_number
            [⟨wn, TransactionType.deposit, a, "DEP_" ++ tok,
              TransactionStatus.pending, none⟩] = 0 := by
          simp [signedSuccessSum]
        rw [hz]
        simpa using hbal w hw

theorem Inv_runOps (st : LedgerState) (ops : List Op) (h : Inv st) :
    Inv (runOps st ops) := by
  induction ops generalizing st with
  | nil => exact h
  | cons op ops ih => exact ih (applyOp st op) (Inv_applyOp st op h)

theorem transfer_funds_ok (st : LedgerState) (sN rN : String) (amount : ℚ)
    (tok : String) (sw rw : Wallet)
    (hsw : findWallet sN st.wallets = some sw)
    (hrw : findWallet rN st.wallets = some rw)
    (hne : sN ≠ rN) (ha : 0 < amount) (hbal : amount ≤ sw.balance) :
    transfer_funds sN rN amount tok st =
      .ok (⟨creditBalance rN amount (creditBalance sN (-amount) st.wallets),
            st.transactions ++
              [⟨sN, TransactionType.transfer_out, amount, "TRF_" ++ tok ++ "_OUT",
                TransactionStatus.success, some rN⟩,
               ⟨rN, TransactionType.transfer_in, amount, "TRF_" ++ tok ++ "_IN",
                TransactionStatus.success, some sN⟩]⟩,
           ⟨sN, TransactionType.transfer_out, amount, "TRF_" ++ tok ++ "_OUT",
            TransactionStatus.success, some rN⟩,
           ⟨rN, TransactionType.transfer_in, amount, "TRF_" ++ tok ++ "_IN",
            TransactionStatus.success, some sN⟩) := by
  have ha' : ¬ (amount ≤ 0) := not_le.mpr ha
  have hbal' : ¬ (sw.balance < amount) := not_lt.mpr hbal
  have hswn : sw.wallet_number = sN := findWallet_eq_number _ _ _ hsw
  have hrwn : rw.wallet_number = rN := findWallet_eq_number _ _ _ hrw
  by_cases hord : sN ≤ rN
  · simp [transfer_funds, lockOrder, hord, ha', hsw, hrw, hswn, hrwn, hbal']
  · simp [transfer_funds, lockOrder, hord, ha', hsw, hrw, hswn, hrwn, hbal',
      hne, Ne.symm hne]

theorem transfer_funds_insufficient (st : LedgerState) (sN rN : String) (amount : ℚ)
    (tok : String) (sw rw : Wallet)
    (hsw : findWallet sN st.wallets = some sw)
    (hrw : findWallet rN st.wallets = some rw)
    (ha : 0 < amount) (hins : sw.balance < amount) :
    transfer_funds sN rN amount tok st = .error "Insufficient balance" := by
  have ha' : ¬ (amount ≤ 0) := not_le.mpr ha
  have hswn : sw.wallet_number = sN := findWallet_eq_number _ _ _ hsw
  have hrwn : rw.wallet_number = rN := findWallet_eq_number _ _ _ hrw
  by_cases hord : sN ≤ rN
  · simp [transfer_funds, lockOrder, hord, ha', hsw, hrw, hswn, hrwn, hins]
  · have hne : rN ≠ sN := by
      intro h
      subst h
      exact hord le_rfl
    simp [transfer_funds, lockOrder, hord, ha', hsw, hrw, hswn, hrwn, hins, hne]

theorem transfer_funds_ok_transactions (s r : String) (a : ℚ) (tok : String)
    (st st' : LedgerState) (o i' : Transaction)
    (h : transfer_funds s r a tok st = .ok (st', o, i')) :
    st'.transactions = st.transactions ++ [o, i'] := by
  by_cases ha : a ≤ 0
  · simp [transfer_funds, ha] at h
  · cases hw1 : findWallet (lockOrder s r).1 st.wallets with
    | none => simp [transfer_funds, ha, hw1] at h
    | some w1 =>
        cases hw2 : findWallet (lockOrder s r).2 st.wallets with
        | none => simp [transfer_funds, ha, hw1, hw2] at h
        | some w2 =>
            by_cases hb : (if w1.wallet_number = s then w1 else w2).balance < a
            · simp [transfer_funds, ha, hw1, hw2, hb] at h
            · simp only [transfer_funds, ha, hw1, hw2, hb, beq_iff_eq, if_false,
                reduceIte, Except.ok.injEq, Prod.mk.injEq] at h
              obtain ⟨h1, h2, h3⟩ := h
              subst h1
              subst h2
              subst h3
              rfl

theorem process_successful_charge_ok_transactions (ref : String) (st st' : LedgerState)
    (r : WebhookResult) (h : process_successful_charge ref st = .ok (st', r)) :
    st'.transactions = st.transactions ∨
      ∃ t, findTxn ref st.transactions = some t ∧
        t.status ≠ TransactionStatus.success ∧
        st'.transactions = setTxnStatus ref TransactionStatus.success st.transactions := by
  cases hfind : findTxn ref st.transactions with
  | none =>
      simp only [process_successful_charge, hfind, Except.ok.injEq, Prod.mk.injEq] at h
      exact Or.inl (h.1 ▸ rfl)
  | some t =>
      by_cases hst : t.status = TransactionStatus.success
      · simp only [process_successful_charge, hfind, hst, if_true, reduceIte,
          Except.ok.injEq, Prod.mk.injEq] at h
        exact Or.inl (h.1 ▸ rfl)
      · cases hw : findWallet t.wallet_number st.wallets with
        | none => simp [process_successful_charge, hfind, hst, hw] at h
        | some w0 =>
            by_cases hamt : t.amount ≤ 0
            · simp [process_successful_charge, hfind, hst, hw, hamt] at h
            · simp only [process_successful_charge, hfind, hst, hw, hamt, if_false,
                reduceIte, Except.ok.injEq, Prod.mk.injEq] at h
              refine Or.inr ⟨t, rfl, hst, ?_⟩
              exact h.1 ▸ rfl

theorem process_failed_charge_transactions (ref : String) (st : LedgerState) :
    (process_failed_charge ref st).1.transactions = st.transactions ∨
      ∃ t, findTxn ref st.transactions = some t ∧
        t.status = TransactionStatus.pending ∧
        (process_failed_charge ref st).1.transactions =
          setTxnStatus ref TransactionStatus.failed st.transactions := by
  cases hfind : findTxn ref st.transactions with
  | none => simp [process_failed_charge, hfind]
  | some t =>
      by_cases hf : t.status = TransactionStatus.failed
      · simp [process_failed_charge, hfind, hf]
      · by_cases hs : t.status = TransactionStatus.success
        · simp [process_failed_charge, hfind, hf, hs]
        · have hpend : t.status = TransactionStatus.pending := by
            cases hstat : t.status <;> simp_all
          refine Or.inr ⟨t, rfl, hpend, ?_⟩
          simp [process_failed_charge, hfind, hf, hs]

theorem statusStep_refl (a : TransactionStatus) : statusStep a a :=
  Or.inl rfl

theorem statusStep_trans {a b c : TransactionStatus}
    (h1 : statusStep a b) (h2 : statusStep b c) : statusStep a c := by
  rcases h1 with rfl | h1 | ⟨h1, rfl⟩
  · exact h2
  · exact Or.inr (Or.inl h1)
  · rcases h2 with rfl | h2 | ⟨h2, _⟩
    · exact Or.inr (Or.inr ⟨h1, rfl⟩)
    · exact TransactionStatus.noConfusion h2
    · exact TransactionStatus.noConfusion h2

theorem getElem?_lt_length {ts : List Transaction} {i : ℕ} {t : Transaction}
    (h : ts[i]? = some t) : i < ts.length := by
  by_contra hc
  rw [List.getElem?_eq_none (le_of_not_lt hc)] at h
  cases h

theorem statusStep_applyOp (st : LedgerState) (op : Op) (i : ℕ) (t : Transaction)
    (h : st.transactions[i]? = some t) :
    ∃ t', (applyOp st op).transactions[i]? = some t' ∧ statusStep t.status t'.status := by
  have hlen : i < st.transactions.length := getElem?_lt_length h
  cases op with
  | transfer s r a tok =>
      cases htf : transfer_funds s r a tok st with
      | error e =>
          refine ⟨t, ?_, statusStep_refl t.status⟩
          simp only [applyOp, htf]
          exact h
      | ok res =>
          obtain ⟨st', o, i2⟩ := res
          have hts := transfer_funds_ok_transactions s r a tok st st' o i2 htf
          refine ⟨t, ?_, statusStep_refl t.status⟩
          simp only [applyOp, htf]
          rw [hts, List.getElem?_append_left hlen]
          exact h
  | successCharge ref =>
      cases hp : process_successful_charge ref st with
      | error e =>
          refine ⟨t, ?_, statusStep_refl t.status⟩
          simp only [applyOp, hp]
          exact h
      | ok res =>
          obtain ⟨st', r⟩ := res
          rcases process_successful_charge_ok_transactions ref st st' r hp with
            hsame | ⟨t0, hf0, hs0, hset⟩
          · refine ⟨t, ?_, statusStep_refl t.status⟩
            simp only [applyOp, hp]
            rw [hsame]
            exact h
          · rcases getElem?_setTxnStatus ref TransactionStatus.success st.transactions i t h
              with h' | ⟨h', hft⟩
            · refine ⟨t, ?_, statusStep_refl t.status⟩
              simp only [applyOp, hp]
              rw [hset]
              exact h'
            · have ht0 : t0 = t := by
                rw [hf0] at hft
                exact Option.some.inj hft
              subst ht0
              refine ⟨{ t0 with status := TransactionStatus.success }, ?_, ?_⟩
              · simp only [applyOp, hp]
                rw [hset]
                exact h'
              · cases hs : t0.status with
                | pending => exact Or.inr (Or.inl rfl)
                | success => exact absurd hs hs0
                | failed => exact Or.inr (Or.inr ⟨rfl, rfl⟩)
  | failedCharge ref =>
      rcases process_failed_charge_transactions ref st with hsame | ⟨t0, hf0, hpend, hset⟩
      · refine ⟨t, ?_, statusStep_refl t.status⟩
        simp only [applyOp]
        rw [hsame]
        exact h
      · rcases getElem?_setTxnStatus ref TransactionStatus.failed st.transactions i t h
          with h' | ⟨h', hft⟩
        · refine ⟨t, ?_, statusStep_refl t.status⟩
          simp only [applyOp]
          rw [hset]
          exact h'
        · have ht0 : t0 = t := by
            rw [hf0] at hft
            exact Option.some.inj hft
          subst ht0
          refine ⟨{ t0 with status := TransactionStatus.failed }, ?_, ?_⟩
          · simp only [applyOp]
            rw [hset]
            exact h'
          · exact Or.inr (Or.inl hpend)
  | initDeposit wn a tok =>
      refine ⟨t, ?_, statusStep_refl t.status⟩
      simp only [applyOp, initialize_deposit]
      rw [List.getElem?_append_left hlen]
      exact h

theorem statusStep_runOps (st : LedgerState) (ops : List Op) (i : ℕ)
    (t : Transaction) (h : st.transactions[i]? = some t) :
    ∃ t', (runOps st ops).transactions[i]? = some t' ∧ statusStep t.status t'.status := by
  induction ops generalizing st t with
  | nil => exact ⟨t, h, statusStep_refl t.status⟩
  | cons op ops ih =>
      obtain ⟨t1, h1, hs1⟩ := statusStep_applyOp st op i t h
      obtain ⟨t2, h2, hs2⟩ := ih (applyOp st op) t1 h1
      exact ⟨t2, h2, statusStep_trans hs1 hs2⟩

/-- C1: For every wallet W, after any sequence of transfer,
deposit-initiation and deposit-finalization operations applied to a ledger
satisfying the invariant, W's balance equals the sum of the amounts of W's
`success` transactions signed by type (`deposit` and `transfer_in`
positive, `transfer_out` negative); `pending`/`failed` transactions
contribute nothing. -/
theorem C1_balance_invariant (st : LedgerState) (ops : List Op) (h : Inv st) :
    ∀ w ∈ (runOps st ops).wallets,
      w.balance = signedSuccessSum w.wallet_number (runOps st ops).transactions :=
  (Inv_runOps st ops h).2

/-- C1 witness: starting from two empty wallets, a deposit of 2500 into the
first wallet, its finalization, and a transfer of 1000 to the second leave
every balance equal to its signed success sum. -/
theorem C1_balance_invariant_witness :
    Inv stC1 ∧
      ∀ w ∈ (runOps stC1 opsC1).wallets,
        w.balance = signedSuccessSum w.wallet_number (runOps stC1 opsC1).transactions := by
  have hInv : Inv stC1 := by
    constructor
    · intro t ht
      simp [stC1] at ht
    · intro w hw
      simp [stC1] at hw
      rcases hw with rfl | rfl <;> simp [stC1, signedSuccessSum]
  exact ⟨hInv, C1_balance_invariant stC1 opsC1 hInv⟩

/-- C2: With both wallets present and `0 < amount`, the transfer endpoint
succeeds iff the sender covers the amount and the wallets differ; on
success it appends exactly the two `success` rows — `transfer_out` on the
sender with the recipient's number in `meta` and reference
`TRF_<token>_OUT`, `transfer_in` on the recipient with the sender's number
in `meta` and reference `TRF_<token>_IN` — and leaves balances
`bS - A` and `bR + A`. -/
theorem C2_transfer_correct (st : LedgerState) (sN rN : String) (amount : ℚ)
    (tok : String) (sw rw : Wallet)
    (hsw : findWallet sN st.wallets = some sw)
    (hrw : findWallet rN st.wallets = some rw)
    (ha : 0 < amount) :
    ((api_transfer_funds sN rN amount tok st).2.success = true ↔
      amount ≤ sw.balance ∧ sN ≠ rN) ∧
    (amount ≤ sw.balance → sN ≠ rN →
      (api_transfer_funds sN rN amount tok st).1.transactions =
        st.transactions ++
          [⟨sN, TransactionType.transfer_out, amount, "TRF_" ++ tok ++ "_OUT",
            TransactionStatus.success, some rN⟩,
           ⟨rN, TransactionType.transfer_in, amount, "TRF_" ++ tok ++ "_IN",
            TransactionStatus.success, some sN⟩] ∧
      findWallet sN (api_transfer_funds sN rN amount tok st).1.wallets =
        some ⟨sN, sw.balance - amount⟩ ∧
      findWallet rN (api_transfer_funds sN rN amount tok st).1.wallets =
        some ⟨rN, rw.balance + amount⟩) := by
  have hswn : sw.wallet_number = sN := findWallet_eq_number _ _ _ hsw
  have hrwn : rw.wallet_number = rN := findWallet_eq_number _ _ _ hrw
  by_cases hne : sN = rN
  · subst hne
    have hrw' : rw = sw := by
      rw [hsw] at hrw
      exact (Option.some.inj hrw).symm
    subst hrw'
    constructor
    · simp [api_transfer_funds, hsw]
    · intro _ hcontra
      exact absurd rfl hcontra
  · by_cases hins : sw.balance < amount
    · have herr := transfer_funds_insufficient st sN rN amount tok sw rw hsw hrw ha hins
      constructor
      · simp [api_transfer_funds, hsw, hrw, hswn, hrwn, hne, herr, not_le.mpr hins]
      · intro hle
        exact absurd hins (not_lt.mpr hle)
    · have hok := transfer_funds_ok st sN rN amount tok sw rw hsw hrw hne ha
        (not_lt.mp hins)
      constructor
      · simp [api_transfer_funds, hsw, hrw, hswn, hrwn, hne, hok, not_lt.mp hins]
      · intro _ _
        refine ⟨?_, ?_, ?_⟩
        · simp [api_transfer_funds, hsw, hrw, hswn, hrwn, hne, hok]
        · simp [api_transfer_funds, hsw, hrw, hswn, hrwn, hne, hok,
            findWallet_creditBalance, Ne.symm hne, sub_eq_add_neg]
        · simp [api_transfer_funds, hsw, hrw, hswn, hrwn, hne, hok,
            findWallet_creditBalance, Ne.symm hne]

/-- C2 witness: the spec §8 scenario — wallet `1111111111111` (balance
1000.00) transfers 1000.00 to wallet `2222222222222` (balance 0.00):
the transfer succeeds, balances end at 0.00 and 1000.00, and the two
`success` rows are appended. -/
theorem C2_transfer_correct_witness :
    ((api_transfer_funds "1111111111111" "2222222222222" 1000 "AB12" stC2).2.success =
        true ↔ (1000 : ℚ) ≤ 1000 ∧ "1111111111111" ≠ "2222222222222") ∧
    ((1000 : ℚ) ≤ 1000 → "1111111111111" ≠ "2222222222222" →
      (api_transfer_funds "1111111111111" "2222222222222" 1000 "AB12" stC2).1.transactions =
        stC2.transactions ++
          [⟨"1111111111111", TransactionType.transfer_out, 1000, "TRF_" ++ "AB12" ++ "_OUT",
            TransactionStatus.success, some "2222222222222"⟩,
           ⟨"2222222222222", TransactionType.transfer_in, 1000, "TRF_" ++ "AB12" ++ "_IN",
            TransactionStatus.success, some "1111111111111"⟩] ∧
      findWallet "1111111111111"
          (api_transfer_funds "1111111111111" "2222222222222" 1000 "AB12" stC2).1.wallets =
        some ⟨"1111111111111", 1000 - 1000⟩ ∧
      findWallet "2222222222222"
          (api_transfer_funds "1111111111111" "2222222222222" 1000 "AB12" stC2).1.wallets =
        some ⟨"2222222222222", 0 + 1000⟩) :=
  C2_transfer_correct stC2 "1111111111111" "2222222222222" 1000 "AB12"
    ⟨"1111111111111", 1000⟩ ⟨"2222222222222", 0⟩ (by decide) (by decide) (by norm_num)

/-- C3 counterexample: a `failed` deposit row is not terminal — a success
finalization for its reference moves it from `failed` back to `success`
and credits the wallet, contradicting "no operation moves a failed
transaction to success". -/
theorem C3_counterexample :
    stC3.transactions[0]?.map Transaction.status = some TransactionStatus.failed ∧
    (applyOp stC3 (Op.successCharge "DEP_A")).transactions[0]?.map Transaction.status =
      some TransactionStatus.success ∧
    findWallet "1111111111111" (applyOp stC3 (Op.successCharge "DEP_A")).wallets =
      some ⟨"1111111111111", 10⟩ := by
  refine ⟨rfl, rfl, ?_⟩
  show findWallet "1111111111111"
      (applyOp stC3 (Op.successCharge "DEP_A")).wallets = _
  norm_num [applyOp, process_successful_charge, stC3, findTxn, findWallet,
    creditBalance, setTxnStatus]
  decide

/-- C3 (amended): transaction statuses evolve only along
`pending → success`, `pending → failed` and `failed → success` (a success
finalization re-credits a failed row); once a transaction is `success`, no
operation ever changes its status again. -/
theorem C3_amended_status_transitions (st : LedgerState) (ops : List Op) (i : ℕ)
    (t : Transaction) (h : st.transactions[i]? = some t) :
    ∃ t', (runOps st ops).transactions[i]? = some t' ∧
      statusStep t.status t'.status ∧
      (t.status = TransactionStatus.success → t'.status = TransactionStatus.success) := by
  obtain ⟨t', h', hs⟩ := statusStep_runOps st ops i t h
  refine ⟨t', h', hs, ?_⟩
  intro hsucc
  rcases hs with h2 | h2 | ⟨h2, h3⟩
  · rw [← h2, hsucc]
  · rw [hsucc] at h2
    exact TransactionStatus.noConfusion h2
  · rw [hsucc] at h2
    exact TransactionStatus.noConfusion h2

/-- C3 amended witness: the already-credited deposit of `stC6` keeps status
`success` across a further success finalization and a failed finalization. -/
theorem C3_amended_status_transitions_witness :
    ∃ t' : Transaction,
      (runOps stC6 [Op.successCharge "DEP_X", Op.failedCharge "DEP_X"]).transactions[0]? =
        some t' ∧
      statusStep TransactionStatus.success t'.status ∧
      (TransactionStatus.success = TransactionStatus.success →
        t'.status = TransactionStatus.success) :=
  C3_amended_status_transitions stC6 [Op.successCharge "DEP_X", Op.failedCharge "DEP_X"] 0
    ⟨"1111111111111", TransactionType.deposit, 2500, "DEP_X",
      TransactionStatus.success, none⟩ (by decide)

/-- C4: success finalization is idempotent: on a `pending` transaction with
positive amount and existing wallet, the first call credits the balance by
the amount and returns the credited acknowledgement; the second call
returns the already-processed acknowledgement on the unchanged state, so
two success notifications credit exactly once. -/
theorem C4_success_finalization_idempotent (st : LedgerState) (ref : String)
    (t : Transaction) (w : Wallet)
    (hfind : findTxn ref st.transactions = some t)
    (hpend : t.status = TransactionStatus.pending)
    (hw : findWallet t.wallet_number st.wallets = some w)
    (ha : 0 < t.amount) :
    ∃ st1,
      process_successful_charge ref st =
        .ok (st1, ⟨true, "Wallet credited successfully"⟩) ∧
      findWallet t.wallet_number st1.wallets =
        some ⟨w.wallet_number, w.balance + t.amount⟩ ∧
      process_successful_charge ref st1 =
        .ok (st1, ⟨true, "Transaction already processed"⟩) ∧
      findWallet t.wallet_number
          (runOps st [Op.successCharge ref, Op.successCharge ref]).wallets =
        some ⟨w.wallet_number, w.balance + t.amount⟩ := by
  have hst : t.status ≠ TransactionStatus.success := by
    rw [hpend]
    simp
  have ha' : ¬ t.amount ≤ 0 := not_le.mpr ha
  have hwn : w.wallet_number = t.wallet_number := findWallet_eq_number _ _ _ hw
  have hrun1 : process_successful_charge ref st =
      Except.ok (⟨creditBalance t.wallet_number t.amount st.wallets,
            setTxnStatus ref TransactionStatus.success st.transactions⟩,
           (⟨true, "Wallet credited successfully"⟩ : WebhookResult)) := by
    simp [process_successful_charge, hfind, hst, hw, ha']
  have hfw : findWallet t.wallet_number
      (creditBalance t.wallet_number t.amount st.wallets) =
      some ⟨w.wallet_number, w.balance + t.amount⟩ := by
    rw [findWallet_creditBalance, hw]
    simp [hwn]
  have hfind1 : findTxn ref
      (setTxnStatus ref TransactionStatus.success st.transactions) =
      some { t with status := TransactionStatus.success } :=
    findTxn_setTxnStatus_self ref TransactionStatus.success st.transactions t hfind
  have hrun2 : process_successful_charge ref
      (⟨creditBalance t.wallet_number t.amount st.wallets,
        setTxnStatus ref TransactionStatus.success st.transactions⟩ : LedgerState) =
      Except.ok (⟨creditBalance t.wallet_number t.amount st.wallets,
            setTxnStatus ref TransactionStatus.success st.transactions⟩,
           (⟨true, "Transaction already processed"⟩ : WebhookResult)) := by
    simp [process_successful_charge, hfind1]
  refine ⟨⟨creditBalance t.wallet_number t.amount st.wallets,
           setTxnStatus ref TransactionStatus.success st.transactions⟩,
          hrun1, hfw, hrun2, ?_⟩
  show findWallet t.wallet_number
      (applyOp (applyOp st (Op.successCharge ref)) (Op.successCharge ref)).wallets = _
  have h1 : applyOp st (Op.successCharge ref) =
      ⟨creditBalance t.wallet_number t.amount st.wallets,
       setTxnStatus ref TransactionStatus.success st.transactions⟩ := by
    simp [applyOp, hrun1]
  rw [h1]
  have h2 : applyOp
      (⟨creditBalance t.wallet_number t.amount st.wallets,
        setTxnStatus ref TransactionStatus.success st.transactions⟩ : LedgerState)
      (Op.successCharge ref) =
      ⟨creditBalance t.wallet_number t.amount st.wallets,
       setTxnStatus ref TransactionStatus.success st.transactions⟩ := by
    simp [applyOp, hrun2]
  rw [h2]
  exact hfw

/-- C4 witness: the spec §8 scenario — a wallet at 5000.00 with a pending
2500.00 deposit `DEP_X` ends at 7500.00 after two success notifications,
the second returning the already-processed acknowledgement. -/
theorem C4_success_finalization_idempotent_witness :
    ∃ st1,
      process_successful_charge "DEP_X" stC4 =
        .ok (st1, ⟨true, "Wallet credited successfully"⟩) ∧
      findWallet "1111111111111" st1.wallets = some ⟨"1111111111111", 7500⟩ ∧
      process_successful_charge "DEP_X" st1 =
        .ok (st1, ⟨true, "Transaction already processed"⟩) ∧
      findWallet "1111111111111"
          (runOps stC4 [Op.successCharge "DEP_X", Op.successCharge "DEP_X"]).wallets =
        some ⟨"1111111111111", 7500⟩ := by
  have h := C4_success_finalization_idempotent stC4 "DEP_X"
    ⟨"1111111111111", TransactionType.deposit, 2500, "DEP_X",
      TransactionStatus.pending, none⟩
    ⟨"1111111111111", 5000⟩ (by decide) rfl (by decide) (by norm_num)
  norm_num at h
  exact h

/-- C5: a transfer whose amount exceeds the sender's balance is rejected
with the insufficient-balance error and the rejection leaves the ledger
untouched: no transaction row is created and no balance changes. -/
theorem C5_insufficient_balance_rejected (st : LedgerState) (sN rN : String)
    (amount : ℚ) (tok : String) (sw rw : Wallet)
    (hsw : findWallet sN st.wallets = some sw)
    (hrw : findWallet rN st.wallets = some rw)
    (ha : 0 < amount) (hins : sw.balance < amount) :
    transfer_funds sN rN amount tok st = .error "Insufficient balance" ∧
    applyOp st (Op.transfer sN rN amount tok) = st := by
  have h1 := transfer_funds_insufficient st sN rN amount tok sw rw hsw hrw ha hins
  exact ⟨h1, by simp [applyOp, h1]⟩

/-- C5 witness: a sender with balance 500.00 attempting to transfer 1000.00
is rejected with the insufficient-balance error and the ledger is
unchanged. -/
theorem C5_insufficient_balance_rejected_witness :
    transfer_funds "1111111111111" "2222222222222" 1000 "T9" stC5 =
      .error "Insufficient balance" ∧
    applyOp stC5 (Op.transfer "1111111111111" "2222222222222" 1000 "T9") = stC5 :=
  C5_insufficient_balance_rejected stC5 "1111111111111" "2222222222222" 1000 "T9"
    ⟨"1111111111111", 500⟩ ⟨"2222222222222", 0⟩ (by decide) (by decide)
    (by norm_num) (by norm_num)

/-- C6: a failed finalization arriving for a reference whose transaction is
already `success` is rejected as a conflict (`status = False`,
"Transaction already successful") and returns the ledger unchanged: the
transaction stays `success` and no balance is reduced. -/
theorem C6_failed_after_success_conflict (st : LedgerState) (ref : String)
    (t : Transaction)
    (hfind : findTxn ref st.transactions = some t)
    (hsucc : t.status = TransactionStatus.success) :
    process_failed_charge ref st = (st, ⟨false, "Transaction already successful"⟩) := by
  simp [process_failed_charge, hfind, hsucc]

/-- C6 witness: a failed notification for the already-credited deposit
`DEP_X` of `stC6` is rejected as a conflict with the state unchanged. -/
theorem C6_failed_after_success_conflict_witness :
    process_failed_charge "DEP_X" stC6 =
      (stC6, ⟨false, "Transaction already successful"⟩) :=
  C6_failed_after_success_conflict stC6 "DEP_X"
    ⟨"1111111111111", TransactionType.deposit, 2500, "DEP_X",
      TransactionStatus.success, none⟩ (by decide) rfl

/-- C7: a self-transfer (sender wallet equals recipient wallet) is rejected
by the transfer endpoint with the 400 validation error before any ledger
mutation: the returned state is the input state, so zero transactions are
created and no balance changes. -/
theorem C7_self_transfer_rejected (st : LedgerState) (n : String) (amount : ℚ)
    (tok : String) (sw : Wallet)
    (hsw : findWallet n st.wallets = some sw) :
    api_transfer_funds n n amount tok st =
      (st, ⟨false, 400, "Cannot transfer to your own wallet"⟩) := by
  simp [api_transfer_funds, hsw]

/-- C7 witness: transferring 100.00 from wallet `1111111111111` to itself
is rejected with the validation error and the ledger is unchanged. -/
theorem C7_self_transfer_rejected_witness :
    api_transfer_funds "1111111111111" "1111111111111" 100 "T0" stC7 =
      (stC7, ⟨false, 400, "Cannot transfer to your own wallet"⟩) :=
  C7_self_transfer_rejected stC7 "1111111111111" 100 "T0"
    ⟨"1111111111111", 1000⟩ (by decide)

/-- C8: for every transfer over a wallet pair, the lock-acquisition order
used by `transfer_funds` (`lockOrder`) puts the lexically smaller wallet
number first and is identical for both transfer directions over the same
pair. -/
theorem C8_lock_order_deterministic (s r : String) :
    lockOrder s r = (min s r, max s r) ∧ lockOrder s r = lockOrder r s := by
  unfold lockOrder
  rcases le_total s r with h | h
  · by_cases h2 : r ≤ s
    · have he : s = r := le_antisymm h h2
      subst he
      simp
    · simp [h, h2, min_eq_left h, max_eq_right h]
  · by_cases h2 : s ≤ r
    · have he : s = r := le_antisymm h2 h
      subst he
      simp
    · simp [h, h2, min_eq_right h, max_eq_left h]

/-- C9 counterexample: the deposit boundary accepts `0.005` (only `gt=0`
is enforced), yet `int(amount * 100)` yields `0`, not the exact
`100 × 0.005 = 0.5` — the conversion silently truncates fractional minor
units, so the claim fails as stated over all accepted amounts. -/
theorem C9_counterexample :
    depositAmountValid (1 / 200 : ℚ) = true ∧
    ((amount_kobo (1 / 200 : ℚ) : ℚ) ≠ 100 * (1 / 200 : ℚ)) := by
  constructor
  · norm_num [depositAmountValid]
  · have h1 : amount_kobo (1 / 200 : ℚ) = 0 := by
      unfold amount_kobo pyInt
      have hc : ¬ ((1 / 200 : ℚ) * 100 < 0) := by norm_num
      rw [if_neg hc]
      norm_num
    rw [h1]
    norm_num

/-- C9 (amended): for every positive amount accepted at the deposit
boundary that is a whole number of minor units (at most two fractional
digits, i.e. `100 * amount` is an integer), the kobo conversion equals
exactly 100 times the amount; amounts with finer fractions are silently
truncated toward zero. -/
theorem C9_amended_exact_on_minor_units (a : ℚ) (ha : 0 < a)
    (hden : (100 * a).den = 1) :
    (amount_kobo a : ℚ) = 100 * a := by
  unfold amount_kobo pyInt
  have hnn : ¬ (a * 100 < 0) := not_lt.mpr (by positivity)
  rw [if_neg hnn, mul_comm a 100]
  rw [← (Rat.den_eq_one_iff (100 * a)).mp hden]
  rw [Int.floor_intCast]

/-- C9 amended witness: 2500.00 converts to exactly 250000 kobo. -/
theorem C9_amended_exact_on_minor_units_witness :
    (0 : ℚ) < 2500 ∧ (100 * (2500 : ℚ)).den = 1 ∧
      (amount_kobo 2500 : ℚ) = 100 * 2500 :=
  ⟨by norm_num,
   by
     rw [show (100 * (2500 : ℚ)) = 250000 by norm_num]
     decide,
   C9_amended_exact_on_minor_units 2500 (by norm_num)
     (by
       rw [show (100 * (2500 : ℚ)) = 250000 by norm_num]
       decide)⟩

/-- C10: after the signature and freshness guards, a webhook whose event is
anything other than "charge.success" is acknowledged with 200 "Webhook
received" and the ledger is returned unchanged; and no webhook dispatch —
for any event — ever moves a transaction to `failed`
(`process_failed_charge` is not invoked from the endpoint), so a pending
deposit is never marked failed by a gateway notification. -/
theorem C10_webhook_non_success_is_noop (event : String) (oref : Option String)
    (st : LedgerState) :
    (event ≠ "charge.success" →
      paystack_webhook_dispatch event oref st =
        (st, ⟨true, 200, "Webhook received"⟩)) ∧
    (∀ (i : ℕ) (t : Transaction), st.transactions[i]? = some t →
      ∃ t' : Transaction,
        (paystack_webhook_dispatch event oref st).1.transactions[i]? = some t' ∧
        (t'.status = TransactionStatus.failed →
          t.status = TransactionStatus.failed)) := by
  constructor
  · intro hev
    simp [paystack_webhook_dispatch, hev]
  · intro i t h
    by_cases hev : event = "charge.success"
    · subst hev
      cases oref with
      | none => exact ⟨t, by simp [paystack_webhook_dispatch]; exact h, fun hf => hf⟩
      | some ref =>
          cases hp : process_successful_charge ref st with
          | error e =>
              refine ⟨t, ?_, fun hf => hf⟩
              simp [paystack_webhook_dispatch, hp]
              exact h
          | ok res =>
              obtain ⟨st', r⟩ := res
              rcases process_successful_charge_ok_transactions ref st st' r hp with
                hsame | ⟨t0, hf0, hs0, hset⟩
              · refine ⟨t, ?_, fun hf => hf⟩
                simp only [paystack_webhook_dispatch, hp]
                simp [hsame]
                exact h
              · rcases getElem?_setTxnStatus ref TransactionStatus.success
                  st.transactions i t h with h2 | ⟨h2, hft⟩
                · refine ⟨t, ?_, fun hf => hf⟩
                  simp only [paystack_webhook_dispatch, hp]
                  simp [hset]
                  exact h2
                · refine ⟨{ t with status := TransactionStatus.success }, ?_, ?_⟩
                  · simp only [paystack_webhook_dispatch, hp]
                    simp [hset]
                    exact h2
                  · intro hf
                    exact absurd hf (by simp)
    · refine ⟨t, ?_, fun hf => hf⟩
      simp [paystack_webhook_dispatch, hev]
      exact h

/-- C10 witness: an authenticated `charge.failed` event naming the pending
deposit `DEP_Y` is acknowledged with 200 "Webhook received", the ledger is
unchanged, and the pending row is not marked failed. -/
theorem C10_webhook_non_success_is_noop_witness :
    paystack_webhook_dispatch "charge.failed" (some "DEP_Y") stC10 =
      (stC10, ⟨true, 200, "Webhook received"⟩) ∧
    ∃ t' : Transaction,
      (paystack_webhook_dispatch "charge.failed" (some "DEP_Y")
        stC10).1.transactions[0]? = some t' ∧
      (t'.status = TransactionStatus.failed →
        TransactionStatus.pending = TransactionStatus.failed) := by
  refine ⟨(C10_webhook_non_success_is_noop "charge.failed" (some "DEP_Y") stC10).1
    (by decide), ?_⟩
  exact (C10_webhook_non_success_is_noop "charge.failed" (some "DEP_Y") stC10).2 0
    ⟨"1111111111111", TransactionType.deposit, 2500, "DEP_Y",
      TransactionStatus.pending, none⟩ (by decide)

end WalletService
